import Mathlib

/-!
A shallow embedding of the Mongoose/MongoDB tutorial script
(`src/index.js`, `src/personModel.js`, `src/peopleData.js`).

The database is modelled as a list of `Person` documents together with a
fresh-id counter.  Each Mongoose built-in used by the script is embedded as a
pure function on this state (`Model.saveNew`, `Model.create`, `Model.find`,
`Model.findOne`, `Model.findById`, `Model.saveExisting`,
`Model.findOneAndUpdateAge`, `Model.findByIdAndRemove`, `Model.deleteMany`,
`Model.queryChainCall`).  The script's operation functions are embedded as
functions returning the list of Node-style callback invocations they perform
(`CbEvent` traces) together with the updated database state; promise
settlement and the `cbToPromise` helper are modelled over those traces.
-/

/-- A stored `Person` document: the fields of `personSchema` plus the
Mongo-assigned `_id` (modelled as a `Nat`).  `name` is a `String` (required,
so always present), `age` an optional number, `favoriteFoods` a list of
strings. -/
structure Person where
  _id : Nat
  name : String
  age : Option Int
  favoriteFoods : List String
deriving DecidableEq, Repr

/-- Raw input to the `Person` constructor / `Model.create`: every schema field
may be absent. -/
structure PersonInput where
  name : Option String
  age : Option Int
  favoriteFoods : Option (List String)
deriving DecidableEq, Repr

/-- Schema field types used by `personSchema` in `personModel.js`. -/
inductive FieldType where
  | string
  | number
  | arrayOfStrings
deriving DecidableEq, Repr

/-- A declared schema field: its name, type, whether it is `required`, and
whether it carries the `default: []` declaration. -/
structure SchemaField where
  fieldName : String
  fieldType : FieldType
  required : Bool
  defaultsToEmptyArray : Bool
deriving DecidableEq, Repr

/-- The schema declared in `personModel.js`:
`name` a required String, `age` a Number, `favoriteFoods` an array of Strings
with default `[]`. -/
def personSchema : List SchemaField :=
  [ ⟨"name", .string, true, false⟩,
    ⟨"age", .number, false, false⟩,
    ⟨"favoriteFoods", .arrayOfStrings, false, true⟩ ]

/-- The models registered by the program: `personModel.js` registers exactly
one, `mongoose.model('Person', personSchema)`. -/
def registeredModels : List (String × List SchemaField) :=
  [("Person", personSchema)]

/-- Mongoose validation for the `Person` schema: a missing `name` is a
validation error; `favoriteFoods` falls back to its declared default `[]`.
On success the document receives the given fresh `_id`. -/
def validatePerson (id : Nat) (input : PersonInput) : Except String Person :=
  match input.name with
  | none => .error "ValidationError: Path name is required."
  | some n => .ok ⟨id, n, input.age, input.favoriteFoods.getD []⟩

/-- The state of the `people` collection: the next fresh `_id` and the stored
documents in insertion order. -/
structure DbState where
  nextId : Nat
  docs : List Person
deriving DecidableEq, Repr

/-- The query filters the script passes to the Mongoose built-ins:
`{ name: personName }` and `{ favoriteFoods: food }` (the latter matches
documents whose `favoriteFoods` array contains `food`). -/
inductive Query where
  | byName (personName : String)
  | byFood (food : String)
deriving DecidableEq, Repr

/-- MongoDB matching semantics for the two query shapes. -/
def Query.matches : Query → Person → Bool
  | .byName n, p => p.name == n
  | .byFood f, p => p.favoriteFoods.contains f

/-- `document.save()` on a newly constructed document: validate, then append
to the collection with a fresh `_id`.  On a validation error nothing is
stored. -/
def Model.saveNew (st : DbState) (input : PersonInput) :
    Except String Person × DbState :=
  match validatePerson st.nextId input with
  | .error e => (.error e, st)
  | .ok p => (.ok p, ⟨st.nextId + 1, st.docs ++ [p]⟩)

/-- `Model.create(arrayOfPeople)`: insert the inputs in order, stopping at the
first validation failure (documents inserted before the failure remain). -/
def Model.create (st : DbState) :
    List PersonInput → Except String (List Person) × DbState
  | [] => (.ok [], st)
  | input :: rest =>
    match Model.saveNew st input with
    | (.error e, st') => (.error e, st')
    | (.ok p, st') =>
      match Model.create st' rest with
      | (.ok ps, st'') => (.ok (p :: ps), st'')
      | (.error e, st'') => (.error e, st'')

/-- `Model.find(query)`: all documents matching the filter, in collection
order. -/
def Model.find (st : DbState) (q : Query) : List Person :=
  st.docs.filter q.matches

/-- `Model.findOne(query)`: the first document matching the filter, if any. -/
def Model.findOne (st : DbState) (q : Query) : Option Person :=
  st.docs.find? q.matches

/-- `Model.findById(id)`: the document with the given `_id`, if any. -/
def Model.findById (st : DbState) (id : Nat) : Option Person :=
  st.docs.find? (fun p => p._id == id)

/-- Replace the first document satisfying `p` by its image under `f`; leave
every other document unchanged. -/
def updateFirst (p : Person → Bool) (f : Person → Person) :
    List Person → List Person
  | [] => []
  | d :: ds => if p d then f d :: ds else d :: updateFirst p f ds

/-- `document.save()` on an already-stored document: overwrite the stored
document with the same `_id`.  (The document is typed, so schema validation
succeeds.) -/
def Model.saveExisting (st : DbState) (p : Person) : Person × DbState :=
  (p, ⟨st.nextId, updateFirst (fun q => q._id == p._id) (fun _ => p) st.docs⟩)

/-- `Model.findOneAndUpdate(query, { age: newAge }, { new: true })`: update
the first matching document's `age` and return the updated document; `none`
and no change when nothing matches. -/
def Model.findOneAndUpdateAge (st : DbState) (q : Query) (newAge : Int) :
    Option Person × DbState :=
  match st.docs.find? q.matches with
  | none => (none, st)
  | some p =>
    (some { p with age := some newAge },
     ⟨st.nextId, updateFirst q.matches (fun _ => { p with age := some newAge })
        st.docs⟩)

/-- `Model.findByIdAndRemove(id)`: remove the document with the given `_id`
and return it; `none` and no change when absent. -/
def Model.findByIdAndRemove (st : DbState) (id : Nat) :
    Option Person × DbState :=
  match st.docs.find? (fun p => p._id == id) with
  | none => (none, st)
  | some p => (some p, ⟨st.nextId, st.docs.eraseP (fun q => q._id == id)⟩)

/-- The operation result of `deleteMany`. -/
structure DeleteResult where
  acknowledged : Bool
  deletedCount : Nat
deriving DecidableEq, Repr

/-- `Model.deleteMany(query)`: remove every matching document and report how
many were deleted. -/
def Model.deleteMany (st : DbState) (q : Query) : DeleteResult × DbState :=
  (⟨true, (st.docs.filter q.matches).length⟩,
   ⟨st.nextId, st.docs.filter (fun p => !q.matches p)⟩)

/-- A document as returned under the `select('-age')` projection: the `age`
field is omitted. -/
structure PersonNoAge where
  _id : Nat
  name : String
  favoriteFoods : List String
deriving DecidableEq, Repr

/-- The `select('-age')` projection. -/
def projectNoAge (p : Person) : PersonNoAge :=
  ⟨p._id, p.name, p.favoriteFoods⟩

/-- The `sort({ name: 1 })` comparison: by `name`, ascending. -/
def byNameAsc (a b : Person) : Bool :=
  decide (a.name ≤ b.name)

/-- The fluent chain
`find({favoriteFoods:'burritos'}).sort({name:1}).limit(2).select('-age').exec()`
executed by the driver: filter, then sort by name ascending, then keep at
most 2 documents, then project away `age`. -/
def Model.queryChainCall (st : DbState) : List PersonNoAge :=
  ((((Model.find st (.byFood "burritos")).mergeSort byNameAsc).take 2).map
    projectNoAge)

/-- One observable event of a callback-style function: either the wrapped body
threw synchronously, or the Node-style callback `done` was invoked —
`called (.error e)` for `done(e)`, `called (.ok a)` for `done(null, a)`. -/
inductive CbEvent (ε α : Type) where
  | threw (e : ε)
  | called (r : Except ε α)
deriving Repr

/-- The `p.then(data => done(null, data)).catch(err => done(err))` adapter
used by every operation function: a settled promise produces exactly one
`done` invocation carrying its outcome. -/
def promiseToCb {ε α : Type} (p : Except ε α) : List (CbEvent ε α) :=
  [.called p]

/-- The `cbToPromise` helper of `index.js`: the resulting promise settles on
the first event — a synchronous `throw e` rejects with `e`, `done(err)` with a
truthy `err` rejects with `err`, `done(null, data)` fulfils with `data`; later
events cannot re-settle the promise.  `none` models a promise that never
settles. -/
def cbToPromise {ε α : Type} : List (CbEvent ε α) → Option (Except ε α)
  | [] => none
  | .threw e :: _ => some (.error e)
  | .called r :: _ => some r

/-- The document constructed by `createAndSavePerson`:
`new Person({ name: 'Charlie', age: 40, favoriteFoods: ['sandwich'] })`. -/
def charlieInput : PersonInput :=
  ⟨some "Charlie", some 40, some ["sandwich"]⟩

/-- Task 1, `createAndSavePerson(done)`: build Charlie, `save()`, adapt the
promise to the callback. -/
def createAndSavePerson (st : DbState) :
    List (CbEvent String Person) × DbState :=
  let r := Model.saveNew st charlieInput
  (promiseToCb r.1, r.2)

/-- Task 2, `createManyPeople(arrayOfPeople, done)`: delegate to
`Model.create`. -/
def createManyPeople (arrayOfPeople : List PersonInput) (st : DbState) :
    List (CbEvent String (List Person)) × DbState :=
  let r := Model.create st arrayOfPeople
  (promiseToCb r.1, r.2)

/-- Task 3, `findPeopleByName(personName, done)`: delegate to
`Model.find({ name: personName })`. -/
def findPeopleByName (personName : String) (st : DbState) :
    List (CbEvent String (List Person)) × DbState :=
  (promiseToCb (.ok (Model.find st (.byName personName))), st)

/-- Task 4, `findOneByFood(food, done)`: delegate to
`Model.findOne({ favoriteFoods: food })`. -/
def findOneByFood (food : String) (st : DbState) :
    List (CbEvent String (Option Person)) × DbState :=
  (promiseToCb (.ok (Model.findOne st (.byFood food))), st)

/-- Task 5, `findPersonById(personId, done)`: delegate to
`Model.findById(personId)`. -/
def findPersonById (personId : Nat) (st : DbState) :
    List (CbEvent String (Option Person)) × DbState :=
  (promiseToCb (.ok (Model.findById st personId)), st)

/-- Task 6, `findEditThenSave(personId, done)`: `findById`, then push
`'hamburger'` onto `favoriteFoods` and `save()`.  In the not-found branch the
code calls `done(new Error('Person not found'))` inside the first `.then` and
returns; the chain's second `.then` then runs on the returned `undefined` and
calls `done(null, undefined)` as well — two `done` invocations. -/
def findEditThenSave (personId : Nat) (st : DbState) :
    List (CbEvent String (Option Person)) × DbState :=
  match Model.findById st personId with
  | none =>
    ([.called (.error "Person not found"), .called (.ok none)], st)
  | some person =>
    let edited :=
      { person with favoriteFoods := person.favoriteFoods ++ ["hamburger"] }
    let r := Model.saveExisting st edited
    ([.called (.ok (some r.1))], r.2)

/-- Task 7, `findAndUpdate(personName, done)`: delegate to
`Model.findOneAndUpdate({ name: personName }, { age: 20 }, { new: true })`. -/
def findAndUpdate (personName : String) (st : DbState) :
    List (CbEvent String (Option Person)) × DbState :=
  let r := Model.findOneAndUpdateAge st (.byName personName) 20
  (promiseToCb (.ok r.1), r.2)

/-- Task 8, `removeById(personId, done)`: delegate to
`Model.findByIdAndRemove(personId)`. -/
def removeById (personId : Nat) (st : DbState) :
    List (CbEvent String (Option Person)) × DbState :=
  let r := Model.findByIdAndRemove st personId
  (promiseToCb (.ok r.1), r.2)

/-- Task 9, `removeManyPeople(done)`: delegate to
`Model.deleteMany({ name: 'Mary' })`. -/
def removeManyPeople (st : DbState) :
    List (CbEvent String DeleteResult) × DbState :=
  let r := Model.deleteMany st (.byName "Mary")
  (promiseToCb (.ok r.1), r.2)

/-- Task 10, `queryChain(done)`: delegate to the single fluent driver chain
`Model.queryChainCall`. -/
def queryChain (st : DbState) :
    List (CbEvent String (List PersonNoAge)) × DbState :=
  (promiseToCb (.ok (Model.queryChainCall st)), st)

/-- The seed array of `peopleData.js`. -/
def peopleData : List PersonInput :=
  [ ⟨some "John", some 25, some ["pizza", "burritos"]⟩,
    ⟨some "Mary", some 30, some ["salad", "burritos"]⟩,
    ⟨some "Mary", some 22, some ["pasta"]⟩,
    ⟨some "Peter", some 28, some ["burritos", "burger"]⟩,
    ⟨some "Alice", some 35, some ["sushi"]⟩ ]

/-- The ten data-access operations `runAllTasks` drives, in source order. -/
inductive TaskLabel where
  | insertOne
  | insertMany
  | findByName
  | findOneByFavoriteFood
  | findById
  | readModifyWrite
  | atomicUpdate
  | deleteOne
  | deleteMany
  | chainedQuery
deriving DecidableEq, Repr

/-- How the `runAllTasks()` promise ends: fulfilled, rejected with an error,
or never settled. -/
inductive RunOutcome where
  | completed
  | rejected (e : String)
  | pending
deriving DecidableEq, Repr

/-- `runAllTasks()` of `index.js`: `await cbToPromise(...)` the ten operations
in source order, threading the database state.  Returns the tasks that were
awaited, in order, together with the final state and how the `runAllTasks`
promise settles.  A rejected step rejects the whole run, so no later task
starts; step 8 reads `many[0]._id`, which throws a `TypeError` inside the
wrapped function when `many` is empty. -/
def runAllTasks (st0 : DbState) : List TaskLabel × DbState × RunOutcome :=
  let s1 := createAndSavePerson st0
  match cbToPromise s1.1 with
  | none => ([.insertOne], s1.2, .pending)
  | some (.error e) => ([.insertOne], s1.2, .rejected e)
  | some (.ok savedPerson) =>
    let s2 := createManyPeople peopleData s1.2
    match cbToPromise s2.1 with
    | none => ([.insertOne, .insertMany], s2.2, .pending)
    | some (.error e) => ([.insertOne, .insertMany], s2.2, .rejected e)
    | some (.ok many) =>
      let s3 := findPeopleByName "Mary" s2.2
      match cbToPromise s3.1 with
      | none => ([.insertOne, .insertMany, .findByName], s3.2, .pending)
      | some (.error e) =>
        ([.insertOne, .insertMany, .findByName], s3.2, .rejected e)
      | some (.ok _) =>
        let s4 := findOneByFood "burritos" s3.2
        match cbToPromise s4.1 with
        | none =>
          ([.insertOne, .insertMany, .findByName, .findOneByFavoriteFood],
           s4.2, .pending)
        | some (.error e) =>
          ([.insertOne, .insertMany, .findByName, .findOneByFavoriteFood],
           s4.2, .rejected e)
        | some (.ok _) =>
          let s5 := findPersonById savedPerson._id s4.2
          match cbToPromise s5.1 with
          | none =>
            ([.insertOne, .insertMany, .findByName, .findOneByFavoriteFood,
              .findById], s5.2, .pending)
          | some (.error e) =>
            ([.insertOne, .insertMany, .findByName, .findOneByFavoriteFood,
              .findById], s5.2, .rejected e)
          | some (.ok _) =>
            let s6 := findEditThenSave savedPerson._id s5.2
            match cbToPromise s6.1 with
            | none =>
              ([.insertOne, .insertMany, .findByName, .findOneByFavoriteFood,
                .findById, .readModifyWrite], s6.2, .pending)
            | some (.error e) =>
              ([.insertOne, .insertMany, .findByName, .findOneByFavoriteFood,
                .findById, .readModifyWrite], s6.2, .rejected e)
            | some (.ok _) =>
              let s7 := findAndUpdate "John" s6.2
              match cbToPromise s7.1 with
              | none =>
                ([.insertOne, .insertMany, .findByName, .findOneByFavoriteFood,
                  .findById, .readModifyWrite, .atomicUpdate], s7.2, .pending)
              | some (.error e) =>
                ([.insertOne, .insertMany, .findByName, .findOneByFavoriteFood,
                  .findById, .readModifyWrite, .atomicUpdate], s7.2,
                 .rejected e)
              | some (.ok _) =>
                let s8 : List (CbEvent String (Option Person)) × DbState :=
                  match many.head? with
                  | none => ([.threw "TypeError"], s7.2)
                  | some first => removeById first._id s7.2
                match cbToPromise s8.1 with
                | none =>
                  ([.insertOne, .insertMany, .findByName,
                    .findOneByFavoriteFood, .findById, .readModifyWrite,
                    .atomicUpdate, .deleteOne], s8.2, .pending)
                | some (.error e) =>
                  ([.insertOne, .insertMany, .findByName,
                    .findOneByFavoriteFood, .findById, .readModifyWrite,
                    .atomicUpdate, .deleteOne], s8.2, .rejected e)
                | some (.ok _) =>
                  let s9 := removeManyPeople s8.2
                  match cbToPromise s9.1 with
                  | none =>
                    ([.insertOne, .insertMany, .findByName,
                      .findOneByFavoriteFood, .findById, .readModifyWrite,
                      .atomicUpdate, .deleteOne, .deleteMany], s9.2, .pending)
                  | some (.error e) =>
                    ([.insertOne, .insertMany, .findByName,
                      .findOneByFavoriteFood, .findById, .readModifyWrite,
                      .atomicUpdate, .deleteOne, .deleteMany], s9.2,
                     .rejected e)
                  | some (.ok _) =>
                    let s10 := queryChain s9.2
                    match cbToPromise s10.1 with
                    | none =>
                      ([.insertOne, .insertMany, .findByName,
                        .findOneByFavoriteFood, .findById, .readModifyWrite,
                        .atomicUpdate, .deleteOne, .deleteMany,
                        .chainedQuery], s10.2, .pending)
                    | some (.error e) =>
                      ([.insertOne, .insertMany, .findByName,
                        .findOneByFavoriteFood, .findById, .readModifyWrite,
                        .atomicUpdate, .deleteOne, .deleteMany,
                        .chainedQuery], s10.2, .rejected e)
                    | some (.ok _) =>
                      ([.insertOne, .insertMany, .findByName,
                        .findOneByFavoriteFood, .findById, .readModifyWrite,
                        .atomicUpdate, .deleteOne, .deleteMany,
                        .chainedQuery], s10.2, .completed)

/-- The environment a run of `start()` faces: whether `MONGO_URI` is set in
the process environment, whether `mongoose.connect` succeeds, and how the
`runAllTasks()` promise settles. -/
structure StartEnv where
  mongoUriSet : Bool
  connectSucceeds : Bool
  tasksOutcome : RunOutcome
deriving DecidableEq, Repr

/-- The externally visible effects of one run of `start()`. -/
structure StartTrace where
  startedMemoryServer : Bool
  taskErrorLogged : Option String
  connectionErrorLogged : Bool
  connectionClosed : Bool
  memoryServerStopped : Bool
  rethrown : Option String
deriving DecidableEq, Repr

/-- `start()` of `index.js`: start an in-memory server exactly when
`MONGO_URI` is unset, connect, run the tasks inside `try`/`catch` (a task
error is logged, not rethrown), and in `finally` close the connection and
stop the in-memory server if one was started.  If the connection fails, only
the connection error is logged; if the tasks promise never settles, the
`await` never returns and the `finally` block is never reached. -/
def start (env : StartEnv) : StartTrace :=
  let usedMem := !env.mongoUriSet
  if env.connectSucceeds then
    match env.tasksOutcome with
    | .completed => ⟨usedMem, none, false, true, usedMem, none⟩
    | .rejected e => ⟨usedMem, some e, false, true, usedMem, none⟩
    | .pending => ⟨usedMem, none, false, false, false, none⟩
  else
    ⟨usedMem, none, true, false, false, none⟩

/-- The ten tasks in the order `runAllTasks` drives them. -/
def allTaskLabels : List TaskLabel :=
  [.insertOne, .insertMany, .findByName, .findOneByFavoriteFood, .findById,
   .readModifyWrite, .atomicUpdate, .deleteOne, .deleteMany, .chainedQuery]

/-- The promise-to-callback adapter invokes `done` exactly once. -/
theorem promiseToCb_length_one {ε α : Type} (r : Except ε α) :
    (promiseToCb r).length = 1 :=
  rfl

/-- When some stored document carries the requested `_id`, `findEditThenSave`
invokes `done` exactly once, with an updated document. -/
theorem findEditThenSave_found {st : DbState} {id : Nat}
    (h : ∃ p ∈ st.docs, p._id = id) :
    ∃ q st', findEditThenSave id st = ([.called (.ok (some q))], st') := by
  obtain ⟨p, hp, hid⟩ := h
  have hs : (Model.findById st id).isSome := by
    simp only [Model.findById, List.find?_isSome]
    exact ⟨p, hp, by simp [hid]⟩
  obtain ⟨q, hq⟩ := Option.isSome_iff_exists.mp hs
  refine ⟨{q with favoriteFoods := q.favoriteFoods ++ ["hamburger"]},
    ⟨st.nextId, updateFirst (fun d => d._id == q._id) (fun _ =>
      {q with favoriteFoods := q.favoriteFoods ++ ["hamburger"]}) st.docs⟩, ?_⟩
  simp [findEditThenSave, hq, Model.saveExisting]

/-- From any starting state, the run awaits all ten tasks in source order and
the `runAllTasks` promise fulfils. -/
theorem runAllTasks_sequence (st0 : DbState) :
    (runAllTasks st0).1 = allTaskLabels ∧
      (runAllTasks st0).2.2 = RunOutcome.completed := by
  obtain ⟨q, st', h6⟩ := @findEditThenSave_found
    ⟨st0.nextId + 1 + 1 + 1 + 1 + 1 + 1,
      st0.docs ++ [⟨st0.nextId, "Charlie", some 40, ["sandwich"]⟩] ++
        [⟨st0.nextId + 1, "John", some 25, ["pizza", "burritos"]⟩] ++
        [⟨st0.nextId + 1 + 1, "Mary", some 30, ["salad", "burritos"]⟩] ++
        [⟨st0.nextId + 1 + 1 + 1, "Mary", some 22, ["pasta"]⟩] ++
        [⟨st0.nextId + 1 + 1 + 1 + 1, "Peter", some 28,
          ["burritos", "burger"]⟩] ++
        [⟨st0.nextId + 1 + 1 + 1 + 1 + 1, "Alice", some 35, ["sushi"]⟩]⟩
    st0.nextId
    ⟨⟨st0.nextId, "Charlie", some 40, ["sandwich"]⟩, by simp, rfl⟩
  simp only [runAllTasks, createAndSavePerson, createManyPeople,
    findPeopleByName, findOneByFood, findPersonById, findAndUpdate,
    removeById, removeManyPeople, queryChain, promiseToCb, cbToPromise,
    Model.saveNew, Model.create, validatePerson, charlieInput, peopleData,
    Option.getD_some, List.head?_cons, allTaskLabels, h6]
  exact ⟨trivial, trivial⟩

/-- C1: when run, the script performs insert (create-and-save), bulk insert,
find by name, find-one by favorite food, find by `_id`, read-modify-write,
atomic `findOneAndUpdate`, delete-one by id, delete-many, and the chained
query, in exactly that order; each awaited operation settles before the next
one starts, and the whole run completes. -/
theorem c1_tasks_run_in_order (st0 : DbState) :
    (runAllTasks st0).1 =
      [TaskLabel.insertOne, TaskLabel.insertMany, TaskLabel.findByName,
       TaskLabel.findOneByFavoriteFood, TaskLabel.findById,
       TaskLabel.readModifyWrite, TaskLabel.atomicUpdate, TaskLabel.deleteOne,
       TaskLabel.deleteMany, TaskLabel.chainedQuery] ∧
      (runAllTasks st0).2.2 = RunOutcome.completed :=
  runAllTasks_sequence st0

/-- C5 counterexample: the script demonstrates ten data-access operations,
not eight — on the canonical empty starting state the run drives ten tasks. -/
theorem c5_not_eight_operations :
    (runAllTasks ⟨0, []⟩).1.length = 10 ∧
      (runAllTasks ⟨0, []⟩).1.length ≠ 8 := by
  have h := (runAllTasks_sequence ⟨0, []⟩).1
  rw [h]
  exact ⟨rfl, by decide⟩

/-- C5 (amended): the script demonstrates exactly ten basic data-access
operations. -/
theorem c5_ten_operations (st0 : DbState) :
    (runAllTasks st0).1.length = 10 := by
  rw [(runAllTasks_sequence st0).1]
  rfl

/-- C6: converting a settled promise to callback style (the
`.then(data => done(null, data)).catch(err => done(err))` adapter) and back
through `cbToPromise` is the identity on the promise's outcome — it fulfils
with exactly the fulfilment value and rejects with exactly the rejection
error — and `cbToPromise` rejects when the wrapped function throws
synchronously. -/
theorem c6_adapter_roundtrip {ε α : Type} (p : Except ε α) (e : ε)
    (rest : List (CbEvent ε α)) :
    cbToPromise (promiseToCb p) = some p ∧
    cbToPromise (CbEvent.threw e :: rest) = some (Except.error e) :=
  ⟨rfl, rfl⟩

/-- C7: the program registers exactly one model, named `Person`, and its
schema has exactly the fields `name` (a required String), `age` (a Number),
and `favoriteFoods` (an array of Strings carrying the empty-array default). -/
theorem c7_single_person_model :
    registeredModels.length = 1 ∧
    registeredModels = [("Person", personSchema)] ∧
    personSchema.map SchemaField.fieldName = ["name", "age", "favoriteFoods"] ∧
    personSchema.map SchemaField.fieldType =
      [FieldType.string, FieldType.number, FieldType.arrayOfStrings] ∧
    personSchema.map SchemaField.required = [true, false, false] ∧
    personSchema.map SchemaField.defaultsToEmptyArray = [false, false, true] :=
  ⟨rfl, rfl, rfl, rfl, rfl, rfl⟩

/-- `byNameAsc` is transitive. -/
theorem byNameAsc_trans : ∀ a b c : Person,
    byNameAsc a b → byNameAsc b c → byNameAsc a c := by
  intro a b c hab hbc
  simp only [byNameAsc, decide_eq_true_eq] at hab hbc ⊢
  exact le_trans hab hbc

/-- `byNameAsc` is total. -/
theorem byNameAsc_total : ∀ a b : Person, byNameAsc a b || byNameAsc b a := by
  intro a b
  simp only [byNameAsc, Bool.or_eq_true, decide_eq_true_eq]
  exact le_total a.name b.name

/-- C2: the chained query is the single fluent chain applying, in order,
filter then sort then limit then project; its result contains only
projections of stored persons whose `favoriteFoods` contains `'burritos'`,
is sorted by name ascending, has at most 2 elements, and carries no `age`
field (its elements live in the projected type `PersonNoAge`). -/
theorem c2_queryChain_filter_sort_limit_project (st : DbState) :
    queryChain st =
      ([CbEvent.called (.ok (Model.queryChainCall st))], st) ∧
    Model.queryChainCall st =
      (((Model.find st (.byFood "burritos")).mergeSort byNameAsc).take 2).map
        projectNoAge ∧
    (Model.queryChainCall st).length ≤ 2 ∧
    (Model.queryChainCall st).Pairwise (fun a b => a.name ≤ b.name) ∧
    (∀ r ∈ Model.queryChainCall st, ∃ p ∈ st.docs,
      "burritos" ∈ p.favoriteFoods ∧ r = projectNoAge p) := by
  refine ⟨rfl, rfl, ?_, ?_, ?_⟩
  · simp only [Model.queryChainCall, List.length_map]
    exact le_trans (List.length_take_le 2 _) (le_refl 2)
  · have hs := @List.sorted_mergeSort Person byNameAsc byNameAsc_trans
      byNameAsc_total (Model.find st (.byFood "burritos"))
    have ht := hs.sublist (List.take_sublist 2 _)
    exact ht.map projectNoAge (by
      intro a b hab
      simp only [byNameAsc, decide_eq_true_eq] at hab
      exact hab)
  · intro r hr
    simp only [Model.queryChainCall, List.mem_map] at hr
    obtain ⟨p, hp, rfl⟩ := hr
    have hp' := List.mem_mergeSort.mp (List.mem_of_mem_take hp)
    simp only [Model.find, List.mem_filter, Query.matches] at hp'
    exact ⟨p, hp'.1, by simpa using hp'.2, rfl⟩

/-- C3 counterexample: `findEditThenSave` is not a one-line delegation whose
observable behaviour is a single adapted library call.  On a database whose
only person has `_id = 0`, calling it with id `5` invokes `done` twice —
first with the not-found error the function builds itself, then with
`(null, undefined)` — whereas any library call adapted by
`.then(done(null, .)).catch(done(.))` invokes `done` exactly once
(`promiseToCb_length_one`). -/
theorem c3_findEditThenSave_not_single_delegation :
    (findEditThenSave 5 ⟨1, [⟨0, "Charlie", some 40, ["sandwich"]⟩]⟩).1 =
      [CbEvent.called (.error "Person not found"),
       CbEvent.called (.ok none)] ∧
    (findEditThenSave 5 ⟨1, [⟨0, "Charlie", some 40,
      ["sandwich"]⟩]⟩).1.length ≠ 1 :=
  ⟨rfl, by decide⟩

/-- C3 (amended): every operation function except `findEditThenSave` is a
direct one-line delegation — its observable behaviour (callback invocations
and database state) is exactly the listed built-in library call adapted to
the Node-style callback; `findEditThenSave` instead composes `findById` and
`save` with a not-found check and an edit of its own. -/
theorem c3_nine_ops_single_delegation (st : DbState)
    (personName food : String) (personId : Nat)
    (arrayOfPeople : List PersonInput) :
    createAndSavePerson st =
      (promiseToCb (Model.saveNew st charlieInput).1,
       (Model.saveNew st charlieInput).2) ∧
    createManyPeople arrayOfPeople st =
      (promiseToCb (Model.create st arrayOfPeople).1,
       (Model.create st arrayOfPeople).2) ∧
    findPeopleByName personName st =
      (promiseToCb (.ok (Model.find st (.byName personName))), st) ∧
    findOneByFood food st =
      (promiseToCb (.ok (Model.findOne st (.byFood food))), st) ∧
    findPersonById personId st =
      (promiseToCb (.ok (Model.findById st personId)), st) ∧
    findAndUpdate personName st =
      (promiseToCb
        (.ok (Model.findOneAndUpdateAge st (.byName personName) 20).1),
       (Model.findOneAndUpdateAge st (.byName personName) 20).2) ∧
    removeById personId st =
      (promiseToCb (.ok (Model.findByIdAndRemove st personId).1),
       (Model.findByIdAndRemove st personId).2) ∧
    removeManyPeople st =
      (promiseToCb (.ok (Model.deleteMany st (.byName "Mary")).1),
       (Model.deleteMany st (.byName "Mary")).2) ∧
    queryChain st = (promiseToCb (.ok (Model.queryChainCall st)), st) :=
  ⟨rfl, rfl, rfl, rfl, rfl, rfl, rfl, rfl, rfl⟩

/-- C4 counterexample: the outcome is not always reported exactly once — when
no person carries the requested id, `findEditThenSave` invokes the callback
both ways in one run: `done(Error('Person not found'))` followed by
`done(null, undefined)`. -/
theorem c4_done_called_twice_on_missing_person :
    (findEditThenSave 0 ⟨0, []⟩).1 =
      [CbEvent.called (.error "Person not found"),
       CbEvent.called (.ok none)] ∧
    (findEditThenSave 0 ⟨0, []⟩).1.length = 2 :=
  ⟨rfl, rfl⟩

/-- C4 (amended): every operation function except `findEditThenSave` invokes
`done` exactly once, with the underlying library call's outcome; a failing
library call's error is passed through unchanged with no recovery and no
state change of the function's own.  `findEditThenSave` invokes `done`
exactly once when the person exists, but in the not-found run it invokes
`done` twice — first with the error, then with `(null, undefined)` — while
still leaving the database unchanged. -/
theorem c4_callback_discipline (st : DbState) (personName food : String)
    (personId : Nat) (arrayOfPeople : List PersonInput) :
    (createAndSavePerson st).1 =
      [CbEvent.called (Model.saveNew st charlieInput).1] ∧
    (createManyPeople arrayOfPeople st).1 =
      [CbEvent.called (Model.create st arrayOfPeople).1] ∧
    (findPeopleByName personName st).1 =
      [CbEvent.called (.ok (Model.find st (.byName personName)))] ∧
    (findOneByFood food st).1 =
      [CbEvent.called (.ok (Model.findOne st (.byFood food)))] ∧
    (findPersonById personId st).1 =
      [CbEvent.called (.ok (Model.findById st personId))] ∧
    (findAndUpdate personName st).1 =
      [CbEvent.called
        (.ok (Model.findOneAndUpdateAge st (.byName personName) 20).1)] ∧
    (removeById personId st).1 =
      [CbEvent.called (.ok (Model.findByIdAndRemove st personId).1)] ∧
    (removeManyPeople st).1 =
      [CbEvent.called (.ok (Model.deleteMany st (.byName "Mary")).1)] ∧
    (queryChain st).1 = [CbEvent.called (.ok (Model.queryChainCall st))] ∧
    (∀ e, (Model.create st arrayOfPeople).1 = .error e →
      (createManyPeople arrayOfPeople st).1 = [CbEvent.called (.error e)] ∧
      (createManyPeople arrayOfPeople st).2 =
        (Model.create st arrayOfPeople).2) ∧
    (∀ p, Model.findById st personId = some p →
      ∃ q, (findEditThenSave personId st).1 =
        [CbEvent.called (.ok (some q))]) ∧
    (Model.findById st personId = none →
      (findEditThenSave personId st).1 =
        [CbEvent.called (.error "Person not found"),
         CbEvent.called (.ok none)] ∧
      (findEditThenSave personId st).2 = st) := by
  refine ⟨rfl, rfl, rfl, rfl, rfl, rfl, rfl, rfl, rfl, ?_, ?_, ?_⟩
  · intro e he
    exact ⟨by simp [createManyPeople, promiseToCb, he], rfl⟩
  · intro p hp
    exact ⟨{ p with favoriteFoods := p.favoriteFoods ++ ["hamburger"] },
      by simp [findEditThenSave, hp, Model.saveExisting]⟩
  · intro hn
    exact ⟨by simp [findEditThenSave, hn], by simp [findEditThenSave, hn]⟩

/-- C4 witness: on the empty database with a nameless input, the bulk-insert
callback receives the validation error exactly once, and the not-found run of
`findEditThenSave` leaves the state unchanged. -/
theorem c4_callback_discipline_witness :
    (createManyPeople [⟨none, none, none⟩] ⟨0, []⟩).1 =
      [CbEvent.called
        (.error "ValidationError: Path name is required.")] ∧
    (findEditThenSave 0 ⟨0, []⟩).2 = ⟨0, []⟩ := by
  obtain ⟨-, -, -, -, -, -, -, -, -, h10, -, h12⟩ :=
    c4_callback_discipline ⟨0, []⟩ "Mary" "burritos" 0 [⟨none, none, none⟩]
  exact ⟨(h10 _ rfl).1, (h12 rfl).2⟩

/-- `updateFirst` preserves the collection's length. -/
theorem updateFirst_length (p : Person → Bool) (f : Person → Person)
    (l : List Person) : (updateFirst p f l).length = l.length := by
  induction l with
  | nil => rfl
  | cons d ds ih => cases h : p d <;> simp [updateFirst, h, ih]

/-- A position holding a document that does not satisfy the predicate is left
untouched by `updateFirst`. -/
theorem updateFirst_getElem?_of_not {p : Person → Bool} {f : Person → Person}
    {l : List Person} {i : Nat} {d : Person}
    (hd : l[i]? = some d) (hp : p d = false) :
    (updateFirst p f l)[i]? = some d := by
  induction l generalizing i with
  | nil => simp at hd
  | cons x xs ih =>
    cases hx : p x with
    | true =>
      cases i with
      | zero =>
        simp only [List.getElem?_cons_zero, Option.some.injEq] at hd
        subst hd
        rw [hx] at hp
        cases hp
      | succ n =>
        simpa [updateFirst, hx] using hd
    | false =>
      cases i with
      | zero => simpa [updateFirst, hx] using hd
      | succ n =>
        simp only [updateFirst, hx, Bool.false_eq_true, if_false,
          List.getElem?_cons_succ]
        exact ih (by simpa using hd)

/-- C8: if a person with the given id is stored, `findEditThenSave` appends
exactly the single string `'hamburger'` to that document's `favoriteFoods`,
keeps its `name`, `age` and `_id`, leaves every other document unchanged, and
passes the updated document to the callback; if no such person exists, it
invokes the callback with the `'Person not found'` error and the database
state is unchanged. -/
theorem c8_findEditThenSave_semantics (personId : Nat) (st : DbState) :
    (∀ p, Model.findById st personId = some p →
      (findEditThenSave personId st).1 =
        [CbEvent.called (.ok (some
          { p with favoriteFoods := p.favoriteFoods ++ ["hamburger"] }))] ∧
      (findEditThenSave personId st).2.docs =
        updateFirst (fun d => d._id == p._id)
          (fun _ => { p with favoriteFoods :=
            p.favoriteFoods ++ ["hamburger"] }) st.docs ∧
      (findEditThenSave personId st).2.nextId = st.nextId ∧
      (findEditThenSave personId st).2.docs.length = st.docs.length ∧
      (∀ (i : Nat) (d : Person), st.docs[i]? = some d → d._id ≠ personId →
        (findEditThenSave personId st).2.docs[i]? = some d)) ∧
    (Model.findById st personId = none →
      findEditThenSave personId st =
        ([CbEvent.called (.error "Person not found"),
          CbEvent.called (.ok none)], st)) := by
  constructor
  · intro p hp
    have hid : p._id = personId := by
      have := List.find?_some hp
      simpa using this
    refine ⟨by simp [findEditThenSave, hp, Model.saveExisting],
      by simp [findEditThenSave, hp, Model.saveExisting],
      by simp [findEditThenSave, hp, Model.saveExisting],
      by simp [findEditThenSave, hp, Model.saveExisting, updateFirst_length],
      ?_⟩
    intro i d hd hne
    have hpd : (d._id == p._id) = false := by
      rw [hid]
      exact beq_eq_false_iff_ne.mpr hne
    simp only [findEditThenSave, hp, Model.saveExisting]
    exact updateFirst_getElem?_of_not hd hpd
  · intro hn
    simp [findEditThenSave, hn]

/-- C8 witness: with Charlie (id 0) stored, editing id 0 reports the updated
document once; editing the absent id 7 reports the not-found error and keeps
the state. -/
theorem c8_findEditThenSave_semantics_witness :
    (findEditThenSave 0 ⟨1, [⟨0, "Charlie", some 40, ["sandwich"]⟩]⟩).1 =
      [CbEvent.called (.ok (some ⟨0, "Charlie", some 40,
        ["sandwich", "hamburger"]⟩))] ∧
    findEditThenSave 7 ⟨1, [⟨0, "Charlie", some 40, ["sandwich"]⟩]⟩ =
      ([CbEvent.called (.error "Person not found"),
        CbEvent.called (.ok none)],
       ⟨1, [⟨0, "Charlie", some 40, ["sandwich"]⟩]⟩) := by
  have h0 := c8_findEditThenSave_semantics 0
    ⟨1, [⟨0, "Charlie", some 40, ["sandwich"]⟩]⟩
  have h7 := c8_findEditThenSave_semantics 7
    ⟨1, [⟨0, "Charlie", some 40, ["sandwich"]⟩]⟩
  exact ⟨(h0.1 _ rfl).1, h7.2 rfl⟩

/-- C9: whenever the connection is established and the `runAllTasks` promise
settles, `start()` closes the connection; the in-memory server is stopped if
and only if one was started, which happens exactly when `MONGO_URI` is unset;
a task error is logged and never rethrown. -/
theorem c9_start_releases_resources (env : StartEnv)
    (hc : env.connectSucceeds = true)
    (hs : env.tasksOutcome ≠ RunOutcome.pending) :
    (start env).connectionClosed = true ∧
    ((start env).memoryServerStopped = true ↔ env.mongoUriSet = false) ∧
    ((start env).startedMemoryServer = true ↔ env.mongoUriSet = false) ∧
    (∀ e, env.tasksOutcome = RunOutcome.rejected e →
      (start env).taskErrorLogged = some e) ∧
    (start env).rethrown = none := by
  rcases env with ⟨u, c, t⟩
  cases c with
  | false => cases hc
  | true =>
    cases t with
    | completed => cases u <;> simp [start]
    | rejected e => cases u <;> simp [start]
    | pending => exact absurd rfl hs

/-- C9 witness: with `MONGO_URI` unset, a successful connection and a
rejected task phase, `start()` closes the connection, stops the in-memory
server it started, logs the task error and rethrows nothing. -/
theorem c9_start_releases_resources_witness :
    (start ⟨false, true, .rejected "boom"⟩).connectionClosed = true ∧
    (start ⟨false, true, .rejected "boom"⟩).memoryServerStopped = true ∧
    (start ⟨false, true, .rejected "boom"⟩).taskErrorLogged = some "boom" ∧
    (start ⟨false, true, .rejected "boom"⟩).rethrown = none := by
  have h := c9_start_releases_resources ⟨false, true, .rejected "boom"⟩ rfl
    (by intro h; cases h)
  exact ⟨h.1, h.2.1.mpr rfl, h.2.2.2.1 "boom" rfl, h.2.2.2.2⟩

/-- C10: validation enforces the schema invariant: a save whose input lacks
`name` is rejected and stores nothing; on success the stored document carries
the given `name` string and `age`, and its `favoriteFoods` equals the
supplied array, falling back to `[]` when none was supplied at creation. -/
theorem c10_schema_validation_invariant (st : DbState) (input : PersonInput) :
    (input.name = none →
      (Model.saveNew st input).1 =
        .error "ValidationError: Path name is required." ∧
      (Model.saveNew st input).2 = st) ∧
    (∀ n, input.name = some n →
      Model.saveNew st input =
        (.ok ⟨st.nextId, n, input.age, input.favoriteFoods.getD []⟩,
         ⟨st.nextId + 1,
          st.docs ++ [⟨st.nextId, n, input.age,
            input.favoriteFoods.getD []⟩]⟩)) ∧
    (input.favoriteFoods = none → ∀ p,
      (Model.saveNew st input).1 = .ok p → p.favoriteFoods = []) := by
  obtain ⟨nm, ag, ff⟩ := input
  refine ⟨?_, ?_, ?_⟩
  · rintro rfl
    exact ⟨rfl, rfl⟩
  · rintro n rfl
    rfl
  · rintro rfl p hp
    cases nm with
    | none => cases hp
    | some n =>
      simp only [Model.saveNew, validatePerson] at hp
      cases hp
      rfl

/-- C10 witness: a nameless input is rejected on the empty database; an input
with only a name is stored with `age` absent and `favoriteFoods = []`. -/
theorem c10_schema_validation_invariant_witness :
    (Model.saveNew ⟨0, []⟩ ⟨none, some 5, none⟩).1 =
      .error "ValidationError: Path name is required." ∧
    Model.saveNew ⟨0, []⟩ ⟨some "Ann", none, none⟩ =
      (.ok ⟨0, "Ann", none, []⟩, ⟨1, [⟨0, "Ann", none, []⟩]⟩) := by
  have h1 := c10_schema_validation_invariant ⟨0, []⟩ ⟨none, some 5, none⟩
  have h2 := c10_schema_validation_invariant ⟨0, []⟩ ⟨some "Ann", none, none⟩
  exact ⟨(h1.1 rfl).1, h2.2.1 "Ann" rfl⟩
